import Mathlib

/-!
Shallow embedding of the warehouse inventory tracker
(backend routes in src/backend/routes/index.js, delivery composition in
src/frontend/src/pages/Deliveries.jsx).

Products live in a `products` table; receipts and deliveries are documents
with line items referencing a product id and a quantity.  JavaScript
numbers are modelled by the rationals ℚ; the product stock column is a
total map `ProductId → ℚ` (an SQL UPDATE on a missing id touches zero rows,
which the pointwise-update model reproduces at every id that no document
references).  Each route runs inside BEGIN/COMMIT with ROLLBACK on error,
so an operation is modelled as a function returning the response together
with the post-state; on an error response the post-state is the pre-state.
-/

abbrev ProductId := Nat
abbrev DocId := Nat

/-- A document line: one row of receipt_items / delivery_items
(product_id, quantity). -/
structure Line where
  productId : ProductId
  quantity : ℚ
  deriving Repr, DecidableEq

/-- A document header plus its owned lines: one row of receipts /
deliveries together with its child rows.  `code` is the human-readable
receipt_id / delivery_id column; `party` is supplier / customer. -/
structure Doc where
  id : DocId
  code : String
  party : String
  date : String
  status : String
  lines : List Line
  deriving Repr, DecidableEq

/-- The store state: product stocks plus the two document tables.
`nextReceiptId` / `nextDeliveryId` model the SERIAL primary-key
sequences of the two tables. -/
structure S where
  stocks : ProductId → ℚ
  receipts : List Doc
  deliveries : List Doc
  nextReceiptId : DocId
  nextDeliveryId : DocId

/-- Typed failures surfaced by the routes (HTTP 404 / 400 bodies). -/
inductive Err where
  | NotFound
  | AlreadyValidated
  | InsufficientStock (productId : ProductId) (available : ℚ)
  deriving Repr, DecidableEq

/-- SELECT * FROM docs WHERE id = i (id is the primary key; first match). -/
def findDoc : List Doc → DocId → Option Doc
  | [], _ => none
  | d :: ds, i => if d.id = i then some d else findDoc ds i

/-- UPDATE docs SET status = st WHERE id = i. -/
def setDocStatus : List Doc → DocId → String → List Doc
  | [], _, _ => []
  | d :: ds, i, st =>
      (if d.id = i then { d with status := st } else d) :: setDocStatus ds i st

/-- DELETE FROM docs WHERE id = i (child lines go with their document,
matching the cascading delete of the items tables). -/
def removeDoc : List Doc → DocId → List Doc
  | [], _ => []
  | d :: ds, i => if d.id = i then removeDoc ds i else d :: removeDoc ds i

/-- Pointwise update of the stock column at one product id. -/
def setStock (st : ProductId → ℚ) (p : ProductId) (v : ℚ) : ProductId → ℚ :=
  fun q => if q = p then v else st q

/-- Sum of the quantities of the lines referencing product p
(SUM(quantity) ... WHERE product_id = p). -/
def linesTotal (p : ProductId) : List Line → ℚ
  | [] => 0
  | l :: ls => (if l.productId = p then l.quantity else 0) + linesTotal p ls

/-- COALESCE((SELECT SUM(quantity) FROM items ...), 0): the totalItems
figure the backend list endpoints attach to each document. -/
def totalQuantity : List Line → ℚ
  | [] => 0
  | l :: ls => l.quantity + totalQuantity ls

/-- String(n).padStart(3, the zero character): left-pad the decimal
rendering to width 3. -/
def padStart3 (s : String) : String :=
  if s.length ≥ 3 then s else String.mk (List.replicate (3 - s.length) '0') ++ s

/-- JavaScript `x || d` on an optional string field: undefined and the
empty string are falsy. -/
def jsOr (x : Option String) (d : String) : String :=
  match x with
  | none => d
  | some t => if t = "" then d else t

/-- Request body of POST /receipts and POST /deliveries: counterparty,
date, optional status (`status || 'draft'`), optional items
(`items || []`). -/
structure CreateReq where
  party : String
  date : String
  status : Option String
  items : Option (List Line)

/-- Request body of PUT /receipts/:id and PUT /deliveries/:id: the status
is taken as supplied, with no defaulting and no check against the current
status. -/
structure UpdateReq where
  party : String
  date : String
  status : String
  items : Option (List Line)

/-- POST /receipts: code := RCP- ++ pad3(COUNT(*) + 1), insert header then
items, inside one transaction.  Returns the created document. -/
def createReceipt (s : S) (req : CreateReq) : Doc × S :=
  let n := s.receipts.length + 1
  let d : Doc :=
    { id := s.nextReceiptId
      code := "RCP-" ++ padStart3 (toString n)
      party := req.party
      date := req.date
      status := jsOr req.status "draft"
      lines := req.items.getD [] }
  (d, { s with receipts := s.receipts ++ [d], nextReceiptId := s.nextReceiptId + 1 })

/-- POST /deliveries: code := DEL- ++ pad3(COUNT(*) + 1), insert header
then items, inside one transaction. -/
def createDelivery (s : S) (req : CreateReq) : Doc × S :=
  let n := s.deliveries.length + 1
  let d : Doc :=
    { id := s.nextDeliveryId
      code := "DEL-" ++ padStart3 (toString n)
      party := req.party
      date := req.date
      status := jsOr req.status "draft"
      lines := req.items.getD [] }
  (d, { s with deliveries := s.deliveries ++ [d], nextDeliveryId := s.nextDeliveryId + 1 })

/-- PUT /receipts/:id: update the header (including status, unchecked),
then DELETE the old items and INSERT the new ones; 404 and ROLLBACK when
the id matches no receipt.  Product stock is never touched. -/
def updateReceipt (s : S) (i : DocId) (req : UpdateReq) : Except Err Unit × S :=
  match findDoc s.receipts i with
  | none => (.error .NotFound, s)
  | some _ =>
      (.ok (),
        { s with receipts := s.receipts.map fun d =>
            if d.id = i then
              { d with party := req.party, date := req.date,
                       status := req.status, lines := req.items.getD [] }
            else d })

/-- PUT /deliveries/:id: same shape as the receipt update. -/
def updateDelivery (s : S) (i : DocId) (req : UpdateReq) : Except Err Unit × S :=
  match findDoc s.deliveries i with
  | none => (.error .NotFound, s)
  | some _ =>
      (.ok (),
        { s with deliveries := s.deliveries.map fun d =>
            if d.id = i then
              { d with party := req.party, date := req.date,
                       status := req.status, lines := req.items.getD [] }
            else d })

/-- DELETE /receipts/:id: delete the row (lines cascade), 404 when absent.
No stock column is read or written. -/
def deleteReceipt (s : S) (i : DocId) : Except Err Unit × S :=
  match findDoc s.receipts i with
  | none => (.error .NotFound, s)
  | some _ => (.ok (), { s with receipts := removeDoc s.receipts i })

/-- DELETE /deliveries/:id: delete the row (lines cascade), 404 when
absent. -/
def deleteDelivery (s : S) (i : DocId) : Except Err Unit × S :=
  match findDoc s.deliveries i with
  | none => (.error .NotFound, s)
  | some _ => (.ok (), { s with deliveries := removeDoc s.deliveries i })

/-- The item loop of POST /receipts/:id/validate: for each line in order,
UPDATE products SET stock = stock + quantity WHERE id = product_id. -/
def applyReceiptLines : (ProductId → ℚ) → List Line → (ProductId → ℚ)
  | st, [] => st
  | st, l :: ls => applyReceiptLines (setStock st l.productId (st l.productId + l.quantity)) ls

/-- POST /receipts/:id/validate: 404 when the receipt is missing, 400
AlreadyValidated (with ROLLBACK) when status is done, otherwise add every
line quantity to its product stock and set status to done, all in one
transaction. -/
def validateReceipt (s : S) (i : DocId) : Except Err Unit × S :=
  match findDoc s.receipts i with
  | none => (.error .NotFound, s)
  | some r =>
      if r.status = "done" then (.error .AlreadyValidated, s)
      else
        (.ok (),
          { s with stocks := applyReceiptLines s.stocks r.lines,
                   receipts := setDocStatus s.receipts i "done" })

/-- Modelled from the spec: the repository has no POST
/deliveries/:id/validate route under src (only the deliveries CRUD
routes); this is the Validation Engine of spec section 4.2 for deliveries.
Lines are applied in order against a working copy of the stocks; a line
whose subtraction would drive its product below zero aborts the whole
operation, reporting that product and the quantity still available for it
(its maximum satisfiable quantity). -/
def subDeliveryLines : (ProductId → ℚ) → List Line → Except (ProductId × ℚ) (ProductId → ℚ)
  | st, [] => .ok st
  | st, l :: ls =>
      if st l.productId - l.quantity < 0 then .error (l.productId, st l.productId)
      else subDeliveryLines (setStock st l.productId (st l.productId - l.quantity)) ls

/-- Modelled from the spec: delivery validation (spec section 4.2).  Fails
NotFound when the delivery is missing and AlreadyValidated when its status
is done; otherwise subtracts every line quantity from its product stock
with the all-or-nothing insufficient-stock check of subDeliveryLines, and
on success sets the status to done.  On any failure the state is returned
unchanged (full rollback). -/
def validateDelivery (s : S) (i : DocId) : Except Err Unit × S :=
  match findDoc s.deliveries i with
  | none => (.error .NotFound, s)
  | some d =>
      if d.status = "done" then (.error .AlreadyValidated, s)
      else
        match subDeliveryLines s.stocks d.lines with
        | .error pa => (.error (.InsufficientStock pa.1 pa.2), s)
        | .ok st =>
            (.ok (),
              { s with stocks := st,
                       deliveries := setDocStatus s.deliveries i "done" })

/-- A validation request against the store: one of the two validate
endpoints, with its document id. -/
inductive VCmd where
  | receipt (i : DocId)
  | delivery (i : DocId)

/-- Run a sequence of validation requests; each request leaves the state
of its route (error responses roll back to the pre-state). -/
def runVals : S → List VCmd → S
  | s, [] => s
  | s, .receipt i :: cs => runVals (validateReceipt s i).2 cs
  | s, .delivery i :: cs => runVals (validateDelivery s i).2 cs

/-- Every line quantity stored in the document tables is non-negative
(the Document Line data-model invariant of spec section 3). -/
def wfS (s : S) : Prop :=
  (∀ d ∈ s.receipts, ∀ l ∈ d.lines, 0 ≤ l.quantity) ∧
  (∀ d ∈ s.deliveries, ∀ l ∈ d.lines, 0 ≤ l.quantity)

/-! Frontend delivery composition (src/frontend/src/pages/Deliveries.jsx). -/

/-- One row of the products list the frontend holds (the fields
handleAddItem reads). -/
structure Product where
  id : ProductId
  stock : ℚ
  deriving Repr, DecidableEq

/-- products.find on the id (parseInt of the select value). -/
def findProduct : List Product → ProductId → Option Product
  | [], _ => none
  | p :: ps, i => if p.id = i then some p else findProduct ps i

/-- Outcome of handleAddItem: the invalid-input error message, the silent
early return when the id matches no product, the insufficient-stock error
carrying the displayed available quantity, or the new items list. -/
inductive AddItemResult where
  | invalidInput
  | productMissing
  | insufficient (available : ℚ)
  | added (items : List Line)
  deriving Repr, DecidableEq

/-- handleAddItem of Deliveries.jsx.  The form fields arrive as strings:
an empty product select is modelled as none, and a quantity that is empty
or fails parseFloat as none (isNaN check).  A parsed quantity that is not
positive is rejected; an id that resolves to no product returns silently;
otherwise the quantities already in the form for that product are summed
and the request is rejected when the total would exceed the product's
stock, reporting stock minus the already-reserved sum as available; else
the pair is appended as a new line. -/
def handleAddItem (products : List Product) (items : List Line)
    (pid : Option ProductId) (qty : Option ℚ) : AddItemResult :=
  match pid, qty with
  | some p, some q =>
      if q ≤ 0 then .invalidInput
      else
        match findProduct products p with
        | none => .productMissing
        | some prod =>
            let existing := linesTotal p items
            if existing + q > prod.stock then .insufficient (prod.stock - existing)
            else .added (items ++ [⟨p, q⟩])
  | _, _ => .invalidInput

/-- The figure rendered after the Added Items table in the delivery modal
(Deliveries.jsx line 353): Total Items: formData.items.length. -/
def deliveryModalTotalItems (items : List Line) : Nat :=
  items.length

/-! Concrete stores for the worked scenario of the spec (product 1 has
stock 10) and for the witnesses. -/

/-- Stock column of the worked scenario: product 1 holds 10 units. -/
def stocks10 : ProductId → ℚ := fun p => if p = 1 then 10 else 0

/-- Delivery DEL-001 with the single line (product 1, quantity 4). -/
def delA : Doc :=
  { id := 1, code := "DEL-001", party := "Cust", date := "2024-05-01",
    status := "draft", lines := [⟨1, 4⟩] }

/-- Delivery DEL-002 with the single line (product 1, quantity 20). -/
def delB : Doc :=
  { id := 2, code := "DEL-002", party := "Cust", date := "2024-05-02",
    status := "draft", lines := [⟨1, 20⟩] }

/-- Receipt RCP-001 with two lines for the same product
(quantities 2 and 3). -/
def rcpA : Doc :=
  { id := 1, code := "RCP-001", party := "Supp", date := "2024-05-01",
    status := "draft", lines := [⟨1, 2⟩, ⟨1, 3⟩] }

/-- A validated (done) receipt, for the delete and re-update scenarios. -/
def rcpDone : Doc :=
  { id := 1, code := "RCP-001", party := "Supp", date := "2024-05-01",
    status := "done", lines := [⟨1, 4⟩] }

/-- Scenario store: stock 10 on product 1, one receipt, two deliveries. -/
def sExample : S :=
  { stocks := stocks10, receipts := [rcpA], deliveries := [delA, delB],
    nextReceiptId := 2, nextDeliveryId := 3 }

/-- Store holding only a validated receipt. -/
def sDone : S :=
  { stocks := stocks10, receipts := [rcpDone], deliveries := [],
    nextReceiptId := 2, nextDeliveryId := 1 }

/-- The empty store. -/
def emptyS : S :=
  { stocks := fun _ => 0, receipts := [], deliveries := [],
    nextReceiptId := 1, nextDeliveryId := 1 }

/-- A creation request with no explicit status and no items. -/
def reqDraft : CreateReq :=
  { party := "Acme", date := "2024-06-01", status := none, items := none }

/-- Store after three sequential POST /receipts on the empty store. -/
def threeReceiptsS : S :=
  (createReceipt (createReceipt (createReceipt emptyS reqDraft).2 reqDraft).2 reqDraft).2

/-- Delivery with lines [(product 1, 5), (product 2, 2)] for the edit
scenario. -/
def delEdit : Doc :=
  { id := 1, code := "DEL-001", party := "Cust", date := "2024-05-01",
    status := "draft", lines := [⟨1, 5⟩, ⟨2, 2⟩] }

/-- Store holding the delivery to be edited. -/
def sEdit : S :=
  { stocks := stocks10, receipts := [], deliveries := [delEdit],
    nextReceiptId := 1, nextDeliveryId := 2 }

/-- Update request replacing the lines with the single line
(product 1, 3). -/
def reqEdit : UpdateReq :=
  { party := "Cust", date := "2024-05-01", status := "draft",
    items := some [⟨1, 3⟩] }

/-- Update request that moves a document back to draft, keeping the line
(product 1, 4). -/
def reqRedraft : UpdateReq :=
  { party := "Supp", date := "2024-05-01", status := "draft",
    items := some [⟨1, 4⟩] }

/-- A validated (done) delivery, for the status-reset scenario. -/
def delDone : Doc :=
  { id := 1, code := "DEL-001", party := "Cust", date := "2024-05-01",
    status := "done", lines := [⟨1, 4⟩] }

/-- Store holding only a validated delivery. -/
def sDelDone : S :=
  { stocks := stocks10, receipts := [], deliveries := [delDone],
    nextReceiptId := 1, nextDeliveryId := 2 }

/-! Helper lemmas about the embedded operations. -/

theorem linesTotal_nonneg (p : ProductId) (ls : List Line)
    (hq : ∀ l ∈ ls, 0 ≤ l.quantity) : 0 ≤ linesTotal p ls := by
  induction ls with
  | nil => simp [linesTotal]
  | cons l ls ih =>
      rw [linesTotal]
      have h1 : 0 ≤ l.quantity := hq l (List.mem_cons_self l ls)
      have h2 := ih fun x hx => hq x (List.mem_cons_of_mem l hx)
      by_cases hp : l.productId = p <;> simp [hp] <;> linarith

theorem applyReceiptLines_eq (ls : List Line) :
    ∀ st : ProductId → ℚ, ∀ p, applyReceiptLines st ls p = st p + linesTotal p ls := by
  induction ls with
  | nil => intro st p; simp [applyReceiptLines, linesTotal]
  | cons l ls ih =>
      intro st p
      rw [applyReceiptLines, ih, linesTotal]
      by_cases hp : l.productId = p
      · subst hp; simp [setStock]; ring
      · simp [setStock, hp, Ne.symm hp]

theorem subDeliveryLines_ok_eq (ls : List Line) :
    ∀ st st' : ProductId → ℚ, subDeliveryLines st ls = .ok st' →
      ∀ p, st' p = st p - linesTotal p ls := by
  induction ls with
  | nil =>
      intro st st' h p
      simp [subDeliveryLines] at h
      subst h; simp [linesTotal]
  | cons l ls ih =>
      intro st st' h p
      rw [subDeliveryLines] at h
      split at h
      · simp at h
      · have hr := ih _ _ h p
        rw [hr, linesTotal]
        by_cases hp : l.productId = p
        · subst hp; simp [setStock]; ring
        · simp [setStock, hp, Ne.symm hp]

theorem subDeliveryLines_ok_nonneg (ls : List Line) :
    ∀ st st' : ProductId → ℚ, (∀ p, 0 ≤ st p) →
      subDeliveryLines st ls = .ok st' → ∀ p, 0 ≤ st' p := by
  induction ls with
  | nil =>
      intro st st' hn h p
      simp [subDeliveryLines] at h
      subst h; exact hn p
  | cons l ls ih =>
      intro st st' hn h p
      rw [subDeliveryLines] at h
      split at h
      · simp at h
      · rename_i hlt
        refine ih _ _ ?_ h p
        intro q
        by_cases hq : q = l.productId
        · subst hq; simp [setStock]; linarith [not_lt.mp hlt]
        · simp [setStock, hq]; exact hn q

theorem subDeliveryLines_error_gt (ls : List Line) :
    ∀ st : ProductId → ℚ, ∀ p a, (∀ l ∈ ls, 0 ≤ l.quantity) →
      subDeliveryLines st ls = .error (p, a) →
      st p < linesTotal p ls ∧ ∃ l ∈ ls, l.productId = p := by
  induction ls with
  | nil => intro st p a _ h; simp [subDeliveryLines] at h
  | cons l ls ih =>
      intro st p a hq h
      rw [subDeliveryLines] at h
      split at h
      · rename_i hlt
        injection h with h1
        have hp : l.productId = p := congrArg Prod.fst h1
        have htl : 0 ≤ linesTotal p ls :=
          linesTotal_nonneg p ls fun x hx => hq x (List.mem_cons_of_mem l hx)
        subst hp
        constructor
        · rw [linesTotal]
          simp
          linarith
        · exact ⟨l, List.mem_cons_self l ls, rfl⟩
      · rename_i hge
        obtain ⟨hlt, l', hl', hp'⟩ :=
          ih _ p a (fun x hx => hq x (List.mem_cons_of_mem l hx)) h
        refine ⟨?_, l', List.mem_cons_of_mem l hl', hp'⟩
        rw [linesTotal]
        by_cases hp : l.productId = p
        · subst hp
          simp [setStock] at hlt ⊢
          linarith
        · simp [setStock, hp, Ne.symm hp] at hlt ⊢
          linarith

theorem findDoc_mem (ds : List Doc) (i : DocId) (d : Doc)
    (h : findDoc ds i = some d) : d ∈ ds := by
  induction ds with
  | nil => simp [findDoc] at h
  | cons a ds ih =>
      rw [findDoc] at h
      by_cases ha : a.id = i
      · simp [ha] at h; subst h; exact List.mem_cons_self a ds
      · simp [ha] at h; exact List.mem_cons_of_mem a (ih h)

theorem findDoc_setDocStatus (ds : List Doc) (i : DocId) (st : String) (d : Doc)
    (h : findDoc ds i = some d) :
    findDoc (setDocStatus ds i st) i = some { d with status := st } := by
  induction ds with
  | nil => simp [findDoc] at h
  | cons a ds ih =>
      rw [findDoc] at h
      rw [setDocStatus]
      by_cases ha : a.id = i
      · simp [ha] at h
        subst h
        rw [findDoc]
        simp [ha]
      · simp [ha] at h
        rw [findDoc]
        simp [ha]
        exact ih h

theorem findDoc_removeDoc (ds : List Doc) (i : DocId) :
    findDoc (removeDoc ds i) i = none := by
  induction ds with
  | nil => simp [removeDoc, findDoc]
  | cons a ds ih =>
      rw [removeDoc]
      by_cases ha : a.id = i
      · simpa [ha] using ih
      · rw [if_neg ha, findDoc, if_neg ha]
        exact ih

theorem findDoc_map_upd (ds : List Doc) (i : DocId) (f : Doc → Doc)
    (hf : ∀ x, (f x).id = x.id) (d : Doc) (h : findDoc ds i = some d) :
    findDoc (ds.map fun x => if x.id = i then f x else x) i = some (f d) := by
  induction ds with
  | nil => simp [findDoc] at h
  | cons a ds ih =>
      rw [findDoc] at h
      rw [List.map_cons]
      by_cases ha : a.id = i
      · simp [ha] at h
        subst h
        rw [findDoc]
        simp [ha, hf]
      · simp [ha] at h
        rw [findDoc]
        simp [ha, hf]
        exact ih h

theorem wf_setDocStatus (ds : List Doc) (i : DocId) (st : String)
    (hw : ∀ d ∈ ds, ∀ l ∈ d.lines, 0 ≤ l.quantity) :
    ∀ d ∈ setDocStatus ds i st, ∀ l ∈ d.lines, 0 ≤ l.quantity := by
  induction ds with
  | nil => simp [setDocStatus]
  | cons a ds ih =>
      rw [setDocStatus]
      intro d hd
      rcases List.mem_cons.mp hd with hd | hd
      · subst hd
        by_cases ha : a.id = i
        · simpa [ha] using hw a (List.mem_cons_self a ds)
        · simpa [ha] using hw a (List.mem_cons_self a ds)
      · exact ih (fun x hx => hw x (List.mem_cons_of_mem a hx)) d hd

/-! Equation lemmas for the validate routes. -/

theorem validateReceipt_eq_none (s : S) (i : DocId)
    (h : findDoc s.receipts i = none) :
    validateReceipt s i = (.error .NotFound, s) := by
  unfold validateReceipt
  rw [h]

theorem validateReceipt_eq_done (s : S) (i : DocId) (r : Doc)
    (h : findDoc s.receipts i = some r) (hd : r.status = "done") :
    validateReceipt s i = (.error .AlreadyValidated, s) := by
  unfold validateReceipt
  rw [h]
  simp [hd]

theorem validateReceipt_eq_ok (s : S) (i : DocId) (r : Doc)
    (h : findDoc s.receipts i = some r) (hd : r.status ≠ "done") :
    validateReceipt s i =
      (.ok (), { s with stocks := applyReceiptLines s.stocks r.lines,
                        receipts := setDocStatus s.receipts i "done" }) := by
  unfold validateReceipt
  rw [h]
  simp [hd]

theorem validateDelivery_eq_none (s : S) (i : DocId)
    (h : findDoc s.deliveries i = none) :
    validateDelivery s i = (.error .NotFound, s) := by
  unfold validateDelivery
  rw [h]

theorem validateDelivery_eq_done (s : S) (i : DocId) (d : Doc)
    (h : findDoc s.deliveries i = some d) (hd : d.status = "done") :
    validateDelivery s i = (.error .AlreadyValidated, s) := by
  unfold validateDelivery
  rw [h]
  simp [hd]

theorem validateDelivery_eq_insufficient (s : S) (i : DocId) (d : Doc)
    (pa : ProductId × ℚ)
    (h : findDoc s.deliveries i = some d) (hd : d.status ≠ "done")
    (hs : subDeliveryLines s.stocks d.lines = .error pa) :
    validateDelivery s i = (.error (.InsufficientStock pa.1 pa.2), s) := by
  unfold validateDelivery
  rw [h]
  simp [hd, hs]

theorem validateDelivery_eq_ok (s : S) (i : DocId) (d : Doc)
    (st : ProductId → ℚ)
    (h : findDoc s.deliveries i = some d) (hd : d.status ≠ "done")
    (hs : subDeliveryLines s.stocks d.lines = .ok st) :
    validateDelivery s i =
      (.ok (), { s with stocks := st,
                        deliveries := setDocStatus s.deliveries i "done" }) := by
  unfold validateDelivery
  rw [h]
  simp [hd, hs]

theorem validateReceipt_ok_inv (s : S) (i : DocId)
    (h : (validateReceipt s i).1 = .ok ()) :
    ∃ r, findDoc s.receipts i = some r ∧ r.status ≠ "done" ∧
      validateReceipt s i =
        (.ok (), { s with stocks := applyReceiptLines s.stocks r.lines,
                          receipts := setDocStatus s.receipts i "done" }) := by
  cases hfd : findDoc s.receipts i with
  | none => rw [validateReceipt_eq_none s i hfd] at h; simp at h
  | some r =>
      by_cases hd : r.status = "done"
      · rw [validateReceipt_eq_done s i r hfd hd] at h; simp at h
      · exact ⟨r, rfl, hd, validateReceipt_eq_ok s i r hfd hd⟩

theorem validateDelivery_ok_inv (s : S) (i : DocId)
    (h : (validateDelivery s i).1 = .ok ()) :
    ∃ d st, findDoc s.deliveries i = some d ∧ d.status ≠ "done" ∧
      subDeliveryLines s.stocks d.lines = .ok st ∧
      validateDelivery s i =
        (.ok (), { s with stocks := st,
                          deliveries := setDocStatus s.deliveries i "done" }) := by
  cases hfd : findDoc s.deliveries i with
  | none => rw [validateDelivery_eq_none s i hfd] at h; simp at h
  | some d =>
      by_cases hd : d.status = "done"
      · rw [validateDelivery_eq_done s i d hfd hd] at h; simp at h
      · cases hsd : subDeliveryLines s.stocks d.lines with
        | error pa =>
            rw [validateDelivery_eq_insufficient s i d pa hfd hd hsd] at h
            simp at h
        | ok st =>
            exact ⟨d, st, rfl, hd, hsd, validateDelivery_eq_ok s i d st hfd hd hsd⟩

/-! Preservation of well-formedness and non-negativity. -/

theorem validateReceipt_preserves (s : S) (i : DocId)
    (hw : wfS s) (hn : ∀ p, 0 ≤ s.stocks p) :
    wfS (validateReceipt s i).2 ∧ ∀ p, 0 ≤ (validateReceipt s i).2.stocks p := by
  cases hfd : findDoc s.receipts i with
  | none => rw [validateReceipt_eq_none s i hfd]; exact ⟨hw, hn⟩
  | some r =>
      by_cases hd : r.status = "done"
      · rw [validateReceipt_eq_done s i r hfd hd]; exact ⟨hw, hn⟩
      · rw [validateReceipt_eq_ok s i r hfd hd]
        refine ⟨⟨wf_setDocStatus _ _ _ hw.1, hw.2⟩, ?_⟩
        intro p
        show 0 ≤ applyReceiptLines s.stocks r.lines p
        rw [applyReceiptLines_eq]
        have h1 := hn p
        have h2 : 0 ≤ linesTotal p r.lines :=
          linesTotal_nonneg p r.lines (hw.1 r (findDoc_mem _ _ _ hfd))
        linarith

theorem validateDelivery_preserves (s : S) (i : DocId)
    (hw : wfS s) (hn : ∀ p, 0 ≤ s.stocks p) :
    wfS (validateDelivery s i).2 ∧ ∀ p, 0 ≤ (validateDelivery s i).2.stocks p := by
  cases hfd : findDoc s.deliveries i with
  | none => rw [validateDelivery_eq_none s i hfd]; exact ⟨hw, hn⟩
  | some d =>
      by_cases hd : d.status = "done"
      · rw [validateDelivery_eq_done s i d hfd hd]; exact ⟨hw, hn⟩
      · cases hsd : subDeliveryLines s.stocks d.lines with
        | error pa =>
            rw [validateDelivery_eq_insufficient s i d pa hfd hd hsd]
            exact ⟨hw, hn⟩
        | ok st =>
            rw [validateDelivery_eq_ok s i d st hfd hd hsd]
            refine ⟨⟨hw.1, wf_setDocStatus _ _ _ hw.2⟩, ?_⟩
            intro p
            exact subDeliveryLines_ok_nonneg d.lines s.stocks st hn hsd p

theorem runVals_preserves (cmds : List VCmd) :
    ∀ s : S, wfS s → (∀ p, 0 ≤ s.stocks p) →
      wfS (runVals s cmds) ∧ ∀ p, 0 ≤ (runVals s cmds).stocks p := by
  induction cmds with
  | nil => intro s hw hn; rw [runVals]; exact ⟨hw, hn⟩
  | cons c cs ih =>
      intro s hw hn
      cases c with
      | receipt i =>
          rw [runVals]
          have h := validateReceipt_preserves s i hw hn
          exact ih _ h.1 h.2
      | delivery i =>
          rw [runVals]
          have h := validateDelivery_preserves s i hw hn
          exact ih _ h.1 h.2

theorem updateReceipt_found (s : S) (i : DocId) (req : UpdateReq) (r : Doc)
    (hf : findDoc s.receipts i = some r) :
    (updateReceipt s i req).1 = .ok () ∧
    (updateReceipt s i req).2.stocks = s.stocks ∧
    (updateReceipt s i req).2.deliveries = s.deliveries ∧
    findDoc (updateReceipt s i req).2.receipts i =
      some { r with party := req.party, date := req.date,
                    status := req.status, lines := req.items.getD [] } := by
  unfold updateReceipt
  rw [hf]
  refine ⟨rfl, rfl, rfl, ?_⟩
  exact findDoc_map_upd s.receipts i
    (fun d => { d with party := req.party, date := req.date,
                       status := req.status, lines := req.items.getD [] })
    (fun x => rfl) r hf

theorem updateDelivery_found (s : S) (i : DocId) (req : UpdateReq) (d : Doc)
    (hf : findDoc s.deliveries i = some d) :
    (updateDelivery s i req).1 = .ok () ∧
    (updateDelivery s i req).2.stocks = s.stocks ∧
    (updateDelivery s i req).2.receipts = s.receipts ∧
    findDoc (updateDelivery s i req).2.deliveries i =
      some { d with party := req.party, date := req.date,
                    status := req.status, lines := req.items.getD [] } := by
  unfold updateDelivery
  rw [hf]
  refine ⟨rfl, rfl, rfl, ?_⟩
  exact findDoc_map_upd s.deliveries i
    (fun x => { x with party := req.party, date := req.date,
                       status := req.status, lines := req.items.getD [] })
    (fun x => rfl) d hf

/-- C1: delivery validation is all-or-nothing.  For a delivery that exists
and is not yet done, in a store satisfying the data-model invariants
(non-negative line quantities and stocks): an InsufficientStock failure
returns the store completely unchanged and names an offending product, one
referenced by the lines whose requested total exceeds its current stock;
whenever some referenced product's requested total exceeds its stock the
validation does fail with InsufficientStock; and when no product's
requested total exceeds its stock, validation succeeds, subtracts each
line's quantity from the referenced product's stock, and sets the
delivery's status to done. -/
theorem delivery_validation_all_or_nothing
    (s : S) (i : DocId) (d : Doc)
    (hf : findDoc s.deliveries i = some d)
    (hnd : d.status ≠ "done")
    (hq : ∀ l ∈ d.lines, 0 ≤ l.quantity)
    (hn : ∀ p, 0 ≤ s.stocks p) :
    (∀ p a, (validateDelivery s i).1 = .error (.InsufficientStock p a) →
      (validateDelivery s i).2 = s ∧ s.stocks p < linesTotal p d.lines ∧
      ∃ l ∈ d.lines, l.productId = p) ∧
    ((∃ p, s.stocks p < linesTotal p d.lines) →
      ∃ p a, (validateDelivery s i).1 = .error (.InsufficientStock p a)) ∧
    ((∀ p, linesTotal p d.lines ≤ s.stocks p) →
      (validateDelivery s i).1 = .ok () ∧
      (∀ p, (validateDelivery s i).2.stocks p = s.stocks p - linesTotal p d.lines) ∧
      findDoc (validateDelivery s i).2.deliveries i =
        some { d with status := "done" }) := by
  cases hsd : subDeliveryLines s.stocks d.lines with
  | error pa =>
      have heq := validateDelivery_eq_insufficient s i d pa hf hnd hsd
      have hgt := subDeliveryLines_error_gt d.lines s.stocks pa.1 pa.2 hq (by rw [hsd])
      refine ⟨?_, ?_, ?_⟩
      · intro p a hpa
        rw [heq] at hpa
        simp at hpa
        obtain ⟨hp, _⟩ := hpa
        subst hp
        rw [heq]
        exact ⟨rfl, hgt.1, hgt.2⟩
      · intro _
        exact ⟨pa.1, pa.2, by rw [heq]⟩
      · intro hle
        exact absurd hgt.1 (not_lt.mpr (hle pa.1))
  | ok st =>
      have heq := validateDelivery_eq_ok s i d st hf hnd hsd
      refine ⟨?_, ?_, ?_⟩
      · intro p a hpa
        rw [heq] at hpa
        simp at hpa
      · rintro ⟨p, hp⟩
        have he := subDeliveryLines_ok_eq d.lines s.stocks st hsd p
        have h0 := subDeliveryLines_ok_nonneg d.lines s.stocks st hn hsd p
        exfalso
        rw [he] at h0
        linarith
      · intro hle
        rw [heq]
        exact ⟨rfl, fun p => subDeliveryLines_ok_eq d.lines s.stocks st hsd p,
               findDoc_setDocStatus s.deliveries i "done" d hf⟩

/-- Witness for C1 at the spec's worked scenario: validating DEL-001 (one
line, product 1, quantity 4) against stock 10 succeeds, leaves product 1
at 6 and marks the delivery done. -/
theorem delivery_validation_all_or_nothing_witness :
    (validateDelivery sExample 1).1 = .ok () ∧
    (validateDelivery sExample 1).2.stocks 1 = 6 ∧
    findDoc (validateDelivery sExample 1).2.deliveries 1 =
      some { delA with status := "done" } := by
  have h := delivery_validation_all_or_nothing sExample 1 delA rfl
    (by decide)
    (by decide)
    (by intro p; show (0 : ℚ) ≤ stocks10 p; unfold stocks10; split <;> norm_num)
  have h3 := h.2.2 (by
    intro p
    show linesTotal p delA.lines ≤ stocks10 p
    unfold stocks10 delA linesTotal
    by_cases hp : p = 1
    · simp [hp, linesTotal]
      norm_num
    · simp [hp, Ne.symm hp, linesTotal])
  refine ⟨h3.1, ?_, h3.2.2⟩
  rw [h3.2.1 1]
  show stocks10 1 - linesTotal 1 delA.lines = 6
  norm_num [stocks10, delA, linesTotal]

/-- C2: in a store whose stored line quantities are non-negative (the
Document Line data-model invariant) and whose stocks start non-negative,
every product's stock is still non-negative after any sequence of receipt
and delivery validations; a delivery validation whose subtractions would
drive some product's stock negative (its requested total exceeds its
stock) returns InsufficientStock with the store unchanged; and any
delivery validation that fails with InsufficientStock returns the store
unchanged. -/
theorem validation_stock_nonnegativity (s : S)
    (hw : wfS s) (hn : ∀ p, 0 ≤ s.stocks p) :
    (∀ cmds : List VCmd, ∀ p, 0 ≤ (runVals s cmds).stocks p) ∧
    (∀ i d, findDoc s.deliveries i = some d → d.status ≠ "done" →
      (∃ p, s.stocks p < linesTotal p d.lines) →
      ∃ p a, validateDelivery s i = (.error (.InsufficientStock p a), s)) ∧
    (∀ i p a, (validateDelivery s i).1 = .error (.InsufficientStock p a) →
      (validateDelivery s i).2 = s) := by
  refine ⟨?_, ?_, ?_⟩
  · intro cmds
    exact (runVals_preserves cmds s hw hn).2
  · intro i d hfd hd hex
    cases hsd : subDeliveryLines s.stocks d.lines with
    | error pa =>
        exact ⟨pa.1, pa.2, validateDelivery_eq_insufficient s i d pa hfd hd hsd⟩
    | ok st =>
        exfalso
        obtain ⟨p, hp⟩ := hex
        have he := subDeliveryLines_ok_eq d.lines s.stocks st hsd p
        have h0 := subDeliveryLines_ok_nonneg d.lines s.stocks st hn hsd p
        rw [he] at h0
        linarith
  · intro i p a h
    cases hfd : findDoc s.deliveries i with
    | none => rw [validateDelivery_eq_none s i hfd]
    | some d =>
        by_cases hd : d.status = "done"
        · rw [validateDelivery_eq_done s i d hfd hd]
        · cases hsd : subDeliveryLines s.stocks d.lines with
          | error pa => rw [validateDelivery_eq_insufficient s i d pa hfd hd hsd]
          | ok st =>
              rw [validateDelivery_eq_ok s i d st hfd hd hsd] at h
              simp at h

/-- Witness for C2: in the worked scenario, any interleaving of the three
validations keeps product 1's stock non-negative, and the delivery of 20
units against stock 10 — which would drive the stock negative — fails with
InsufficientStock, leaving the store unchanged. -/
theorem validation_stock_nonnegativity_witness :
    0 ≤ (runVals sExample [VCmd.delivery 1, VCmd.delivery 2, VCmd.receipt 1]).stocks 1 ∧
    (validateDelivery sExample 2).1 = .error (.InsufficientStock 1 10) ∧
    (validateDelivery sExample 2).2 = sExample := by
  have h := validation_stock_nonnegativity sExample
    (by
      constructor <;>
        · intro d hd l hl
          simp [sExample] at hd
          first
          | (subst hd; simp [rcpA] at hl;
             rcases hl with hl | hl <;> subst hl <;> norm_num)
          | (rcases hd with hd | hd <;> subst hd <;>
              simp [delA, delB] at hl <;> subst hl <;> norm_num))
    (by intro p; show (0 : ℚ) ≤ stocks10 p; unfold stocks10; split <;> norm_num)
  have hmid := h.2.1 2 delB rfl (by decide)
    ⟨1, by show stocks10 1 < linesTotal 1 delB.lines;
           norm_num [stocks10, delB, linesTotal]⟩
  have hsd : subDeliveryLines sExample.stocks delB.lines = .error (1, 10) := by
    show subDeliveryLines stocks10 [⟨1, 20⟩] = .error (1, 10)
    norm_num [subDeliveryLines, stocks10]
  have heq := validateDelivery_eq_insufficient sExample 2 delB (1, 10) rfl (by decide) hsd
  refine ⟨h.1 _ 1, by rw [heq], ?_⟩
  obtain ⟨p, a, hpe⟩ := hmid
  rw [hpe]

/-- C3: validating a missing document fails with NotFound and mutates
nothing; validating a done document fails with AlreadyValidated and
mutates nothing; and after a successful validation the document's status
is done, so a second validation of the same document fails with
AlreadyValidated and leaves the post-validation store (hence the stocks,
adjusted exactly once) unchanged.  Both receipt and delivery validation
are covered. -/
theorem validation_terminal_idempotent (s : S) (i : DocId) :
    (findDoc s.receipts i = none → validateReceipt s i = (.error .NotFound, s)) ∧
    (∀ r, findDoc s.receipts i = some r → r.status = "done" →
      validateReceipt s i = (.error .AlreadyValidated, s)) ∧
    ((validateReceipt s i).1 = .ok () →
      (∃ r', findDoc (validateReceipt s i).2.receipts i = some r' ∧
        r'.status = "done") ∧
      validateReceipt (validateReceipt s i).2 i =
        (.error .AlreadyValidated, (validateReceipt s i).2)) ∧
    (findDoc s.deliveries i = none → validateDelivery s i = (.error .NotFound, s)) ∧
    (∀ d, findDoc s.deliveries i = some d → d.status = "done" →
      validateDelivery s i = (.error .AlreadyValidated, s)) ∧
    ((validateDelivery s i).1 = .ok () →
      (∃ d', findDoc (validateDelivery s i).2.deliveries i = some d' ∧
        d'.status = "done") ∧
      validateDelivery (validateDelivery s i).2 i =
        (.error .AlreadyValidated, (validateDelivery s i).2)) := by
  refine ⟨validateReceipt_eq_none s i, fun r => validateReceipt_eq_done s i r, ?_,
          validateDelivery_eq_none s i, fun d => validateDelivery_eq_done s i d, ?_⟩
  · intro hok
    obtain ⟨r, hfd, hd, heq⟩ := validateReceipt_ok_inv s i hok
    have hfd' : findDoc (validateReceipt s i).2.receipts i =
        some { r with status := "done" } := by
      rw [heq]
      exact findDoc_setDocStatus s.receipts i "done" r hfd
    exact ⟨⟨_, hfd', rfl⟩, validateReceipt_eq_done _ i _ hfd' rfl⟩
  · intro hok
    obtain ⟨d, st, hfd, hd, hsd, heq⟩ := validateDelivery_ok_inv s i hok
    have hfd' : findDoc (validateDelivery s i).2.deliveries i =
        some { d with status := "done" } := by
      rw [heq]
      exact findDoc_setDocStatus s.deliveries i "done" d hfd
    exact ⟨⟨_, hfd', rfl⟩, validateDelivery_eq_done _ i _ hfd' rfl⟩

/-- Witness for C3: a missing id fails NotFound with the store unchanged,
a done receipt fails AlreadyValidated with the store unchanged, and
re-validating the just-validated receipt fails AlreadyValidated keeping
the once-adjusted store. -/
theorem validation_terminal_idempotent_witness :
    validateReceipt sExample 99 = (.error .NotFound, sExample) ∧
    validateReceipt sDone 1 = (.error .AlreadyValidated, sDone) ∧
    validateReceipt (validateReceipt sExample 1).2 1 =
      (.error .AlreadyValidated, (validateReceipt sExample 1).2) := by
  refine ⟨(validation_terminal_idempotent sExample 99).1 rfl,
          (validation_terminal_idempotent sDone 1).2.1 rcpDone rfl rfl,
          ((validation_terminal_idempotent sExample 1).2.2.1 rfl).2⟩

/-- C4: validating an existing receipt that is not done succeeds, adds to
every product's stock the sum of that product's line quantities — one
addition per line, so repeated lines for the same product accumulate — and
sets the receipt's status to done with its lines intact. -/
theorem receipt_validation_accumulates (s : S) (i : DocId) (r : Doc)
    (hf : findDoc s.receipts i = some r) (hnd : r.status ≠ "done") :
    (validateReceipt s i).1 = .ok () ∧
    (∀ p, (validateReceipt s i).2.stocks p = s.stocks p + linesTotal p r.lines) ∧
    findDoc (validateReceipt s i).2.receipts i = some { r with status := "done" } := by
  have heq := validateReceipt_eq_ok s i r hf hnd
  rw [heq]
  exact ⟨rfl, fun p => applyReceiptLines_eq r.lines s.stocks p,
         findDoc_setDocStatus s.receipts i "done" r hf⟩

/-- Witness for C4: receipt RCP-001 has the repeated lines (product 1, 2)
and (product 1, 3); validation moves product 1 from 10 to 15 and the
receipt to done. -/
theorem receipt_validation_accumulates_witness :
    (validateReceipt sExample 1).1 = .ok () ∧
    (validateReceipt sExample 1).2.stocks 1 = 15 ∧
    findDoc (validateReceipt sExample 1).2.receipts 1 =
      some { rcpA with status := "done" } := by
  have h := receipt_validation_accumulates sExample 1 rcpA rfl (by decide)
  refine ⟨h.1, ?_, h.2.2⟩
  rw [h.2.1 1]
  show stocks10 1 + linesTotal 1 rcpA.lines = 15
  norm_num [stocks10, rcpA, linesTotal]

/-- C5: on creation the generated code is the type prefix (RCP- for
receipts, DEL- for deliveries) followed by the count of existing documents
of that type plus one, zero-padded to width 3; creation appends the
document, touches no stock, and three sequential receipt creations on an
empty store yield RCP-001, RCP-002, RCP-003. -/
theorem document_code_generation :
    (∀ s req, ((createReceipt s req).1).code =
        "RCP-" ++ padStart3 (toString (s.receipts.length + 1)) ∧
      (createReceipt s req).2.receipts = s.receipts ++ [(createReceipt s req).1] ∧
      (createReceipt s req).2.stocks = s.stocks) ∧
    (∀ s req, ((createDelivery s req).1).code =
        "DEL-" ++ padStart3 (toString (s.deliveries.length + 1)) ∧
      (createDelivery s req).2.deliveries = s.deliveries ++ [(createDelivery s req).1] ∧
      (createDelivery s req).2.stocks = s.stocks) ∧
    threeReceiptsS.receipts.map Doc.code = ["RCP-001", "RCP-002", "RCP-003"] := by
  refine ⟨fun s req => ⟨rfl, rfl, rfl⟩, fun s req => ⟨rfl, rfl, rfl⟩, ?_⟩
  rfl

/-- C6: code bug on the claimed Total Items figure.  The backend list
endpoints compute totalItems as the sum of line quantities, which is 5 for
the two lines (product 1, 2) and (product 1, 3); but the delivery modal of
Deliveries.jsx renders items.length as Total Items, which is 2 on that
same line set, not the claimed 5. -/
theorem totalItems_line_count_divergence :
    totalQuantity [⟨1, 2⟩, ⟨1, 3⟩] = 5 ∧
    deliveryModalTotalItems [⟨1, 2⟩, ⟨1, 3⟩] = 2 ∧
    deliveryModalTotalItems [⟨1, 2⟩, ⟨1, 3⟩] ≠ 5 := by
  refine ⟨by norm_num [totalQuantity], rfl, by decide⟩

/-- C7: the frontend addLine (handleAddItem): a missing product selection
or a missing/non-numeric quantity is rejected as invalid input, as is a
non-positive parsed quantity; a product id that resolves to no known
product is rejected (silent return); a request whose quantity plus the
quantities already reserved in the form for that product exceeds the
product's stock is rejected reporting stock minus the already-reserved sum
as available; otherwise the pair is appended as a new line, without
deduplication by product. -/
theorem addLine_composition_checks (ps : List Product) (items : List Line)
    (p : ProductId) (q : ℚ) (prod : Product)
    (hf : findProduct ps p = some prod) :
    handleAddItem ps items none (some q) = .invalidInput ∧
    handleAddItem ps items (some p) none = .invalidInput ∧
    (q ≤ 0 → handleAddItem ps items (some p) (some q) = .invalidInput) ∧
    (∀ p' q', findProduct ps p' = none → 0 < q' →
      handleAddItem ps items (some p') (some q') = .productMissing) ∧
    (0 < q → prod.stock < linesTotal p items + q →
      handleAddItem ps items (some p) (some q) =
        .insufficient (prod.stock - linesTotal p items)) ∧
    (0 < q → linesTotal p items + q ≤ prod.stock →
      handleAddItem ps items (some p) (some q) = .added (items ++ [⟨p, q⟩])) := by
  refine ⟨rfl, rfl, ?_, ?_, ?_, ?_⟩
  · intro hq
    unfold handleAddItem
    simp [hq]
  · intro p' q' hnone hq'
    unfold handleAddItem
    simp [not_le.mpr hq', hnone]
  · intro hq hst
    unfold handleAddItem
    simp [not_le.mpr hq, hf, hst]
  · intro hq hle
    unfold handleAddItem
    simp [not_le.mpr hq, hf, not_lt.mpr hle]

/-- Witness for C7: with one product of stock 10 and 4 units already in
the form, requesting 7 more is rejected with available 6; on an empty form
the same request is appended as a new line. -/
theorem addLine_composition_checks_witness :
    handleAddItem [⟨1, 10⟩] [⟨1, 4⟩] (some 1) (some 7) = .insufficient 6 ∧
    handleAddItem [⟨1, 10⟩] [] (some 1) (some 7) = .added [⟨1, 7⟩] := by
  have h := addLine_composition_checks [⟨1, 10⟩] [⟨1, 4⟩] 1 7 ⟨1, 10⟩ rfl
  have h2 := addLine_composition_checks [⟨1, 10⟩] [] 1 7 ⟨1, 10⟩ rfl
  constructor
  · have hi := h.2.2.2.2.1 (by norm_num) (by norm_num [linesTotal])
    rw [hi]
    norm_num [linesTotal]
  · have ha := h2.2.2.2.2.2 (by norm_num) (by norm_num [linesTotal])
    rw [ha]
    rfl

/-- C8: updating an existing document (receipt or delivery) succeeds,
installs exactly the supplied line set in place of all prior lines — the
updated document's lines are precisely the request's items — and changes
no product's stock. -/
theorem update_replaces_lines_wholesale (s : S) (i : DocId) (req : UpdateReq) :
    (∀ r, findDoc s.receipts i = some r →
      (updateReceipt s i req).1 = .ok () ∧
      findDoc (updateReceipt s i req).2.receipts i =
        some { r with party := req.party, date := req.date,
                      status := req.status, lines := req.items.getD [] } ∧
      (updateReceipt s i req).2.stocks = s.stocks) ∧
    (∀ d, findDoc s.deliveries i = some d →
      (updateDelivery s i req).1 = .ok () ∧
      findDoc (updateDelivery s i req).2.deliveries i =
        some { d with party := req.party, date := req.date,
                      status := req.status, lines := req.items.getD [] } ∧
      (updateDelivery s i req).2.stocks = s.stocks) := by
  constructor
  · intro r hf
    have h := updateReceipt_found s i req r hf
    exact ⟨h.1, h.2.2.2, h.2.1⟩
  · intro d hf
    have h := updateDelivery_found s i req d hf
    exact ⟨h.1, h.2.2.2, h.2.1⟩

/-- Witness for C8: editing a draft delivery holding the lines
[(product 1, 5), (product 2, 2)] down to the single line (product 1, 3)
leaves exactly that one line and does not touch the stocks. -/
theorem update_replaces_lines_wholesale_witness :
    (updateDelivery sEdit 1 reqEdit).1 = .ok () ∧
    findDoc (updateDelivery sEdit 1 reqEdit).2.deliveries 1 =
      some { delEdit with party := "Cust", date := "2024-05-01",
                          status := "draft", lines := [⟨1, 3⟩] } ∧
    (updateDelivery sEdit 1 reqEdit).2.stocks = sEdit.stocks := by
  have h := (update_replaces_lines_wholesale sEdit 1 reqEdit).2 delEdit rfl
  exact ⟨h.1, h.2.1, h.2.2⟩

/-- C9: deletion removes the document (together with its lines, which live
only inside it) and never reads or writes any product stock — whatever the
document's status, so a validated document's stock effect is not
reversed. -/
theorem delete_never_touches_stock (s : S) (i : DocId) :
    (deleteReceipt s i).2.stocks = s.stocks ∧
    (deleteDelivery s i).2.stocks = s.stocks ∧
    ((deleteReceipt s i).1 = .ok () →
      findDoc (deleteReceipt s i).2.receipts i = none) ∧
    ((deleteDelivery s i).1 = .ok () →
      findDoc (deleteDelivery s i).2.deliveries i = none) := by
  refine ⟨?_, ?_, ?_, ?_⟩
  · unfold deleteReceipt
    cases findDoc s.receipts i <;> rfl
  · unfold deleteDelivery
    cases findDoc s.deliveries i <;> rfl
  · unfold deleteReceipt
    cases findDoc s.receipts i with
    | none => intro h; simp at h
    | some r => intro _; exact findDoc_removeDoc s.receipts i
  · unfold deleteDelivery
    cases findDoc s.deliveries i with
    | none => intro h; simp at h
    | some d => intro _; exact findDoc_removeDoc s.deliveries i

/-- Witness for C9: deleting the already-validated (done) receipt removes
it and leaves the stock exactly as validation had set it. -/
theorem delete_never_touches_stock_witness :
    rcpDone.status = "done" ∧
    (deleteReceipt sDone 1).2.stocks = sDone.stocks ∧
    findDoc (deleteReceipt sDone 1).2.receipts 1 = none := by
  have h := delete_never_touches_stock sDone 1
  exact ⟨rfl, h.1, h.2.2.1 rfl⟩

/-- C10: updating an existing document — receipt or delivery — succeeds
whatever its current status (done included) and installs the
caller-supplied status and lines; and when the status supplied to a
receipt update is not done, the receipt can be validated again, adding the
new lines' per-product totals to the stocks once more. -/
theorem update_resets_terminal_status (s : S) (i : DocId) (req : UpdateReq) :
    (∀ r, findDoc s.receipts i = some r →
      (updateReceipt s i req).1 = .ok () ∧
      findDoc (updateReceipt s i req).2.receipts i =
        some { r with party := req.party, date := req.date,
                      status := req.status, lines := req.items.getD [] } ∧
      (req.status ≠ "done" →
        (validateReceipt (updateReceipt s i req).2 i).1 = .ok () ∧
        ∀ p, (validateReceipt (updateReceipt s i req).2 i).2.stocks p =
          s.stocks p + linesTotal p (req.items.getD []))) ∧
    (∀ d, findDoc s.deliveries i = some d →
      (updateDelivery s i req).1 = .ok () ∧
      findDoc (updateDelivery s i req).2.deliveries i =
        some { d with party := req.party, date := req.date,
                      status := req.status, lines := req.items.getD [] }) := by
  constructor
  · intro r hf
    have h := updateReceipt_found s i req r hf
    refine ⟨h.1, h.2.2.2, ?_⟩
    intro hnd
    have heq := validateReceipt_eq_ok (updateReceipt s i req).2 i _ h.2.2.2 hnd
    rw [heq]
    refine ⟨rfl, ?_⟩
    intro p
    show applyReceiptLines (updateReceipt s i req).2.stocks (req.items.getD []) p = _
    rw [applyReceiptLines_eq, h.2.1]
  · intro d hf
    have h := updateDelivery_found s i req d hf
    exact ⟨h.1, h.2.2.2⟩

/-- Witness for C10: the receipt is done (validated) with line
(product 1, 4) and stock 10; updating it back to draft succeeds, and a
second validation is accepted, moving the stock to 14 — the delta applied
a second time.  Likewise updating a done delivery succeeds and installs
the supplied draft status. -/
theorem update_resets_terminal_status_witness :
    rcpDone.status = "done" ∧
    (updateReceipt sDone 1 reqRedraft).1 = .ok () ∧
    (validateReceipt (updateReceipt sDone 1 reqRedraft).2 1).1 = .ok () ∧
    (validateReceipt (updateReceipt sDone 1 reqRedraft).2 1).2.stocks 1 = 14 ∧
    delDone.status = "done" ∧
    (updateDelivery sDelDone 1 reqRedraft).1 = .ok () ∧
    findDoc (updateDelivery sDelDone 1 reqRedraft).2.deliveries 1 =
      some { delDone with party := "Supp", date := "2024-05-01",
                          status := "draft", lines := [⟨1, 4⟩] } := by
  have h := (update_resets_terminal_status sDone 1 reqRedraft).1 rcpDone rfl
  have h3 := h.2.2 (by decide)
  have hd := (update_resets_terminal_status sDelDone 1 reqRedraft).2 delDone rfl
  refine ⟨rfl, h.1, h3.1, ?_, rfl, hd.1, hd.2⟩
  rw [h3.2 1]
  show stocks10 1 + linesTotal 1 (reqRedraft.items.getD []) = 14
  norm_num [stocks10, reqRedraft, linesTotal]
